import Mathlib

/-!
Verification of the grammar-to-type reducer of `src/typer.ts`.

The reducer walks a parsed CSS value-definition entity sequence and folds it
into a deduplicated list of type descriptors.  The entity tree shape and the
multiplier/combinator enumerations are exported by the external parser module
(`./parser`, not part of the analysed slice) and are modelled here from the
spec together with their use sites in the typer; the reducer itself, the
inclusion gate, the catalog construction and the dedup-insert operations are
translated directly from the source.
-/

namespace CssTyper

/-- Multiplier attached to a grammar entity.  Modelled from the spec: the
parser exports simple multiplier signs (asterisk, plus sign, question mark,
hash mark, exclamation point) and a curly-bracket form carrying numeric
`min`/`max` bounds; the typer distinguishes the curly form via its sign. -/
inductive MultiplierType
  | asterisk
  | plusSign
  | questionMark
  | hashMark
  | exclamationPoint
  | curlyBracet (min max : Int)
deriving DecidableEq

/-- Combinator operators joining adjacent entities, as enumerated by the
parser: juxtaposition, double ampersand, double bar, single bar. -/
inductive Combinator
  | juxtaposition
  | doubleAmpersand
  | doubleBar
  | singleBar
deriving DecidableEq

/-- Entity of the parsed grammar tree.  Modelled from the spec: a Component
(keyword, data-type reference, or group), a Combinator, or a Function whose
internal arguments are not modelled.  Components and functions may carry a
multiplier; keyword and data-type components carry their raw token text and
a group carries its nested entity sequence. -/
inductive EntityType
  | keyword (value : String) (multiplier : Option MultiplierType)
  | dataType (value : String) (multiplier : Option MultiplierType)
  | group (entities : List EntityType) (multiplier : Option MultiplierType)
  | combinator (kind : Combinator)
  | funcEntity (multiplier : Option MultiplierType)

/-- Output type descriptor (`TypeType` in the source with the default alias
instantiation): Length, StringLiteral, NumericLiteral, generic String,
generic Number, or a symbolic DataType reference. -/
inductive TypeType
  | length
  | stringLiteral (literal : String)
  | numericLiteral (literal : Rat)
  | string
  | number
  | dataType (name : String)
deriving DecidableEq

/-- Accessor for the `multiplier` field of an entity; combinators carry no
multiplier (`entity.multiplier` is `undefined` on them in the source). -/
def EntityType.multiplierOf : EntityType → Option MultiplierType
  | .keyword _ m => m
  | .dataType _ m => m
  | .group _ m => m
  | .funcEntity m => m
  | .combinator _ => none

/-- Source `isComponent`: the entity tag is `Entity.Component`. -/
def isComponent : EntityType → Bool
  | .keyword _ _ => true
  | .dataType _ _ => true
  | .group _ _ => true
  | _ => false

/-- Source `isMultiplied`: a curly-bracket multiplier with `min > 1` or
`max > 1`, or an asterisk, plus-sign, hash-mark or exclamation-point sign. -/
def isMultiplied : MultiplierType → Bool
  | .curlyBracet mn mx => decide (1 < mn) || decide (1 < mx)
  | .asterisk => true
  | .plusSign => true
  | .hashMark => true
  | .exclamationPoint => true
  | .questionMark => false

/-- Source test `entity.multiplier && isMultiplied(entity.multiplier)`. -/
def multOf : Option MultiplierType → Bool
  | some m => isMultiplied m
  | none => false

/-- Source `isMandatoryCombinator`: double ampersand or juxtaposition. -/
def isMandatoryCombinator (k : Combinator) : Bool :=
  decide (k = Combinator.doubleAmpersand) || decide (k = Combinator.juxtaposition)

/-- Source `isOptionalEntity`: the entity has a multiplier that is a
curly-bracket form with `min > 0`, an asterisk, or a question mark.  (Note
the source really tests `min > 0`, not `min === 0`.) -/
def isOptionalEntity (e : EntityType) : Bool :=
  match e.multiplierOf with
  | none => false
  | some (MultiplierType.curlyBracet mn _) => decide (0 < mn)
  | some MultiplierType.asterisk => true
  | some MultiplierType.questionMark => true
  | some _ => false

/-- ASCII decimal digit test. -/
def isAsciiDigit (c : Char) : Bool :=
  decide ('0' ≤ c) && decide (c ≤ '9')

/-- Value of a list of decimal digit characters. -/
def digitsVal (cs : List Char) : Nat :=
  cs.foldl (fun a c => a * 10 + (c.toNat - 48)) 0

/-- Integer part of a canonical decimal numeral: `0`, or a nonzero leading
digit followed by digits. -/
def intPartOk : List Char → Bool
  | [] => false
  | ['0'] => true
  | c :: rest => decide (c ≠ '0') && isAsciiDigit c && rest.all isAsciiDigit

/-- Fraction part of a canonical decimal numeral: nonempty digits not ending
in `0`. -/
def fracPartOk (cs : List Char) : Bool :=
  !cs.isEmpty && cs.all isAsciiDigit && decide (cs.getLast? ≠ some '0')

/-- Unsigned canonical decimal numeral, split at the decimal point. -/
def unsignedNumeral (cs : List Char) : Option Rat :=
  match cs.splitOn '.' with
  | [ip] => if intPartOk ip then some ((digitsVal ip : Rat)) else none
  | [ip, fp] =>
    if intPartOk ip && fracPartOk fp then
      some ((digitsVal ip : Rat) + (digitsVal fp : Rat) / ((10 : Rat) ^ fp.length))
    else none
  | _ => none

/-- Modelled from the spec: the source keyword test
`String(Number(entity.value)) === entity.value` uses the JavaScript `Number`
and `String` builtins, which are external to this repository.  The test
succeeds exactly when the text is the canonical decimal representation of
its own numeric value; this model returns that value (using exact rational
arithmetic) for canonical decimal numerals — optional minus sign on a
nonzero value, integer part without leading zeros, optional fraction part
without trailing zeros — and `none` otherwise. -/
def canonicalNumeral (s : String) : Option Rat :=
  match s.toList with
  | '-' :: rest =>
    match unsignedNumeral rest with
    | some q => if q = 0 then none else some (-q)
    | none => none
  | cs => unsignedNumeral cs

/-- Source `entity.value.slice(1, -1)`: drop the first and last character. -/
def sliceValue (s : String) : String :=
  String.mk ((s.toList.drop 1).dropLast)

/-- Leftmost match of the source regular expression, which captures the
first nonempty run of non-quote characters enclosed in single quotes. -/
def execQuoted : List Char → Option String
  | [] => none
  | '\'' :: rest =>
    let content := rest.takeWhile (fun c => decide (c ≠ '\''))
    if 0 < content.length ∧ content.length < rest.length then some (String.mk content)
    else execQuoted rest
  | _ :: rest => execQuoted rest

/-- Common shape of the six `add*` helpers of the source: append the
descriptor unless a structurally equal one is already present.  Each source
helper tests the variant tag together with the literal value or name, which
coincides with equality of the corresponding `TypeType` value. -/
def addUnique (types : List TypeType) (t : TypeType) : List TypeType :=
  if types.all (fun u => decide (u ≠ t)) then types ++ [t] else types

/-- Source `addLength`. -/
def addLength (types : List TypeType) : List TypeType :=
  addUnique types TypeType.length

/-- Source `addString`. -/
def addString (types : List TypeType) : List TypeType :=
  addUnique types TypeType.string

/-- Source `addNumber`. -/
def addNumber (types : List TypeType) : List TypeType :=
  addUnique types TypeType.number

/-- Source `addStringLiteral`. -/
def addStringLiteral (types : List TypeType) (literal : String) : List TypeType :=
  addUnique types (TypeType.stringLiteral literal)

/-- Source `addNumericLiteral`. -/
def addNumericLiteral (types : List TypeType) (literal : Rat) : List TypeType :=
  addUnique types (TypeType.numericLiteral literal)

/-- Source `addDataType`. -/
def addDataType (types : List TypeType) (name : String) : List TypeType :=
  addUnique types (TypeType.dataType name)

/-- Source `addType`: dispatch on the descriptor variant. -/
def addType (types : List TypeType) : TypeType → List TypeType
  | TypeType.length => addLength types
  | TypeType.string => addString types
  | TypeType.number => addNumber types
  | TypeType.stringLiteral l => addStringLiteral types l
  | TypeType.numericLiteral l => addNumericLiteral types l
  | TypeType.dataType n => addDataType types n

/-- Left scan of the source `shouldIncludeComponent`: examine positions
`pos - 1, pos - 2, ..., 0`.  A non-combinator entity is passed over; a
non-mandatory combinator stops the scan; a mandatory combinator at index `i`
inspects the entity at `i - 1` (skipping when `i = 0`, where the source
reads an `undefined` neighbour) and fails when it exists and is not
optional.  The argument is `pos`, so the first examined index is `pos - 1`. -/
def scanLeftAux (entities : List EntityType) : Nat → Bool
  | 0 => true
  | i + 1 =>
    match entities.get? i with
    | some (EntityType.combinator k) =>
      if isMandatoryCombinator k then
        match (if i = 0 then none else entities.get? (i - 1)) with
        | some prev => if isOptionalEntity prev then scanLeftAux entities i else false
        | none => scanLeftAux entities i
      else true
    | _ => scanLeftAux entities i

/-- Right scan of the source `shouldIncludeComponent`: examine positions
`i, i + 1, ...` until past the end, driven by a step counter that is at
least the list length at the top-level call.  A mandatory combinator at `i`
inspects the entity at `i + 1` and fails when it exists and is not
optional; a non-mandatory combinator stops the scan. -/
def scanRightAux (entities : List EntityType) : Nat → Nat → Bool
  | 0, _ => true
  | j + 1, i =>
    match entities.get? i with
    | none => true
    | some (EntityType.combinator k) =>
      if isMandatoryCombinator k then
        match entities.get? (i + 1) with
        | some nxt => if isOptionalEntity nxt then scanRightAux entities j (i + 1) else false
        | none => scanRightAux entities j (i + 1)
      else true
    | some _ => scanRightAux entities j (i + 1)

/-- Source `shouldIncludeComponent` for the component at index `pos` of
`entities` (the source locates the component by object identity via
`indexOf`; positions model that). -/
def shouldIncludeComponent (entities : List EntityType) (pos : Nat) : Bool :=
  scanLeftAux entities pos && scanRightAux entities entities.length (pos + 1)

/-- Loop body of the source `typing`, iterating positions `i` upward with
an accumulator, driven by a step counter `j` that is the list length at the
top-level call.  `props` models the property dataset composed with the
external parser (`parse(properties[name].syntax)`); `basic` models lookup
in the `basicDataTypes` catalog; `recur` is the recursive call used for
group bodies and referenced property grammars (`none` signalling that the
recursion budget ran out). -/
def typingLoop (props : String → Option (List EntityType)) (basic : String → Option TypeType)
    (recur : List EntityType → Option (List TypeType)) (entities : List EntityType) :
    Nat → Nat → List TypeType → Option (List TypeType)
  | 0, _, types => some types
  | j + 1, i, types =>
    match entities.get? i with
    | none => some types
    | some (EntityType.keyword v _) =>
      typingLoop props basic recur entities j (i + 1)
        (if shouldIncludeComponent entities i then
          match canonicalNumeral v with
          | some n => addNumericLiteral types n
          | none => addStringLiteral types v
         else types)
    | some (EntityType.dataType v m) =>
      if shouldIncludeComponent entities i then
        match execQuoted (sliceValue v).toList with
        | some name =>
          match props name with
          | some subEnts =>
            match recur subEnts with
            | some subTypes =>
              typingLoop props basic recur entities j (i + 1)
                (subTypes.foldl addType (if multOf m then addString types else types))
            | none => none
          | none => typingLoop props basic recur entities j (i + 1) (addString types)
        | none =>
          match basic (sliceValue v) with
          | some t => typingLoop props basic recur entities j (i + 1) (addType types t)
          | none =>
            typingLoop props basic recur entities j (i + 1) (addDataType types (sliceValue v))
      else typingLoop props basic recur entities j (i + 1) types
    | some (EntityType.group ents m) =>
      if shouldIncludeComponent entities i then
        match recur ents with
        | some subTypes =>
          typingLoop props basic recur entities j (i + 1)
            (subTypes.foldl addType (if multOf m then addString types else types))
        | none => none
      else typingLoop props basic recur entities j (i + 1) types
    | some (EntityType.combinator k) =>
      typingLoop props basic recur entities j (i + 1)
        (if decide (k = Combinator.doubleBar) || isMandatoryCombinator k then addString types
         else types)
    | some (EntityType.funcEntity _) =>
      typingLoop props basic recur entities j (i + 1) (addString types)

/-- Source `typing`, with an explicit recursion budget: each nesting level
(a group body or a referenced property grammar) consumes one unit of fuel,
mirroring one recursive call of the source; `none` means the budget was
exhausted (the source would recurse deeper). -/
def typing (props : String → Option (List EntityType)) (basic : String → Option TypeType) :
    Nat → List EntityType → Option (List TypeType)
  | 0, _ => none
  | fuel + 1, entities =>
    typingLoop props basic (typing props basic fuel) entities entities.length 0 []

/-- Assignment `dataTypes[name] = value` on the accumulated catalog object:
overwrite the entry for an existing key, otherwise append. -/
def insertAssoc : List (String × TypeType) → String → TypeType → List (String × TypeType)
  | [], k, v => [(k, v)]
  | (k1, v1) :: rest, k, v =>
    if k1 = k then (k, v) :: rest else (k1, v1) :: insertAssoc rest k v

/-- Catalog lookup, modelling `name in basicDataTypes` together with
`basicDataTypes[name]`. -/
def lookupAssoc : List (String × TypeType) → String → Option TypeType
  | [], _ => none
  | (k1, v1) :: rest, n => if k1 = n then some v1 else lookupAssoc rest n

/-- Step of the source `basicDataTypes` reduce: map `number`/`integer` to
Number, `length` to Length, and any other name to generic String only when
it has no composite definition in the syntaxes dataset (`isSyn`). -/
def basicStep (isSyn : String → Bool) (dataTypes : List (String × TypeType)) (name : String) :
    List (String × TypeType) :=
  if name = "number" ∨ name = "integer" then insertAssoc dataTypes name TypeType.number
  else if name = "length" then insertAssoc dataTypes name TypeType.length
  else if isSyn name then dataTypes
  else insertAssoc dataTypes name TypeType.string

/-- Source `basicDataTypes`: reduce over the union of the elementary grammar
names of the types dataset (`cssTypeNames`, modelling `Object.keys(cssTypes)`)
extended with the literal `hex-color`, `isSyn` modelling membership in the
syntaxes dataset. -/
def basicDataTypes (cssTypeNames : List String) (isSyn : String → Bool) :
    List (String × TypeType) :=
  (cssTypeNames ++ ["hex-color"]).foldl (basicStep isSyn) []

/-- Mapping of the scalar-type catalog as the spec words it, for the
refinement claim about `basicDataTypes`: `number` and `integer` map to
Number, `length` to Length, a name with a composite grammar definition is
absent, and any other name maps to generic String. -/
def catalogSpec (isSyn : String → Bool) (name : String) : Option TypeType :=
  if name = "number" ∨ name = "integer" then some TypeType.number
  else if name = "length" then some TypeType.length
  else if isSyn name then none
  else some TypeType.string

/-- Nesting depth of an entity sequence: one more than the deepest group
body, used to state the recursion-depth bound of the reducer. -/
def entitiesDepth : List EntityType → Nat
  | [] => 0
  | e :: rest =>
    max
      (match e with
        | EntityType.group ents _ => entitiesDepth ents + 1
        | _ => 0)
      (entitiesDepth rest)

/-- Every quoted property reference occurring in the sequence (recursively
through group bodies) that resolves in the property dataset has rank below
`bound`.  A rank function under which every property's grammar only
references properties of smaller rank witnesses acyclicity of the
property-to-property reference graph. -/
def refsBelow (props : String → Option (List EntityType)) (rank : String → Nat) (bound : Nat) :
    List EntityType → Bool
  | [] => true
  | e :: rest =>
    (match e with
      | EntityType.group ents _ => refsBelow props rank bound ents
      | EntityType.dataType v _ =>
        (match execQuoted (sliceValue v).toList with
          | some name =>
            match props name with
            | some _ => decide (rank name < bound)
            | none => true
          | none => true)
      | _ => true)
      && refsBelow props rank bound rest

theorem all_ne_iff (types : List TypeType) (t : TypeType) :
    (types.all fun u => decide (u ≠ t)) = true ↔ t ∉ types := by
  simp only [List.all_eq_true, decide_eq_true_eq]
  constructor
  · intro h ht
    exact h t ht rfl
  · intro h u hu heq
    exact h (heq ▸ hu)

theorem addUnique_of_mem {types : List TypeType} {t : TypeType} (h : t ∈ types) :
    addUnique types t = types := by
  unfold addUnique
  rw [if_neg]
  intro hall
  exact (all_ne_iff types t).mp hall h

theorem addUnique_not_mem {types : List TypeType} {t : TypeType} (h : t ∉ types) :
    addUnique types t = types ++ [t] := by
  unfold addUnique
  rw [if_pos ((all_ne_iff types t).mpr h)]

theorem mem_addUnique (types : List TypeType) (t : TypeType) : t ∈ addUnique types t := by
  by_cases h : t ∈ types
  · rw [addUnique_of_mem h]; exact h
  · rw [addUnique_not_mem h]; simp

theorem subset_addUnique (types : List TypeType) (t : TypeType) : types ⊆ addUnique types t := by
  by_cases h : t ∈ types
  · rw [addUnique_of_mem h]; exact fun u hu => hu
  · rw [addUnique_not_mem h]; exact List.subset_append_left _ _

theorem nodup_addUnique {types : List TypeType} (t : TypeType) (h : types.Nodup) :
    (addUnique types t).Nodup := by
  by_cases hm : t ∈ types
  · rw [addUnique_of_mem hm]; exact h
  · rw [addUnique_not_mem hm]
    refine List.Nodup.append h (List.nodup_singleton t) ?_
    intro u hu hu1
    rw [List.mem_singleton] at hu1
    exact hm (hu1 ▸ hu)

theorem addType_eq (types : List TypeType) (t : TypeType) : addType types t = addUnique types t := by
  cases t <;> rfl

theorem subset_addType (types : List TypeType) (t : TypeType) : types ⊆ addType types t := by
  rw [addType_eq]; exact subset_addUnique types t

theorem subset_foldl_addType (l : List TypeType) :
    ∀ acc : List TypeType, acc ⊆ l.foldl addType acc := by
  induction l with
  | nil => intro acc; simp
  | cons x l ih =>
    intro acc
    exact (subset_addType acc x).trans (ih (addType acc x))

theorem nodup_foldl_addType (l : List TypeType) :
    ∀ acc : List TypeType, acc.Nodup → (l.foldl addType acc).Nodup := by
  induction l with
  | nil => intro acc h; simpa using h
  | cons x l ih =>
    intro acc h
    exact ih (addType acc x) (by rw [addType_eq]; exact nodup_addUnique x h)

theorem typingLoop_keyword_step (props : String → Option (List EntityType))
    (basic : String → Option TypeType) (recur : List EntityType → Option (List TypeType))
    (entities : List EntityType) (j i : Nat) (types : List TypeType) (v : String)
    (m : Option MultiplierType) (hget : entities.get? i = some (EntityType.keyword v m)) :
    typingLoop props basic recur entities (j + 1) i types =
      typingLoop props basic recur entities j (i + 1)
        (if shouldIncludeComponent entities i then
          match canonicalNumeral v with
          | some n => addNumericLiteral types n
          | none => addStringLiteral types v
         else types) := by
  simp only [typingLoop, hget]

theorem typingLoop_combinator_step (props : String → Option (List EntityType))
    (basic : String → Option TypeType) (recur : List EntityType → Option (List TypeType))
    (entities : List EntityType) (j i : Nat) (types : List TypeType) (k : Combinator)
    (hget : entities.get? i = some (EntityType.combinator k)) :
    typingLoop props basic recur entities (j + 1) i types =
      typingLoop props basic recur entities j (i + 1)
        (if decide (k = Combinator.doubleBar) || isMandatoryCombinator k then addString types
         else types) := by
  simp only [typingLoop, hget]

theorem typingLoop_function_step (props : String → Option (List EntityType))
    (basic : String → Option TypeType) (recur : List EntityType → Option (List TypeType))
    (entities : List EntityType) (j i : Nat) (types : List TypeType)
    (m : Option MultiplierType) (hget : entities.get? i = some (EntityType.funcEntity m)) :
    typingLoop props basic recur entities (j + 1) i types =
      typingLoop props basic recur entities j (i + 1) (addString types) := by
  simp only [typingLoop, hget]

theorem typingLoop_component_skip (props : String → Option (List EntityType))
    (basic : String → Option TypeType) (recur : List EntityType → Option (List TypeType))
    (entities : List EntityType) (j i : Nat) (types : List TypeType) (e : EntityType)
    (hget : entities.get? i = some e) (hc : isComponent e = true)
    (hgate : shouldIncludeComponent entities i = false) :
    typingLoop props basic recur entities (j + 1) i types =
      typingLoop props basic recur entities j (i + 1) types := by
  cases e with
  | keyword v m => simp only [typingLoop, hget, hgate, Bool.false_eq_true, if_false]
  | dataType v m => simp only [typingLoop, hget, hgate, Bool.false_eq_true, if_false]
  | group ents m => simp only [typingLoop, hget, hgate, Bool.false_eq_true, if_false]
  | combinator k => simp [isComponent] at hc
  | funcEntity m => simp [isComponent] at hc

theorem typingLoop_dataType_quoted_unknown (props : String → Option (List EntityType))
    (basic : String → Option TypeType) (recur : List EntityType → Option (List TypeType))
    (entities : List EntityType) (j i : Nat) (types : List TypeType) (v : String)
    (m : Option MultiplierType) (name : String)
    (hget : entities.get? i = some (EntityType.dataType v m))
    (hgate : shouldIncludeComponent entities i = true)
    (hq : execQuoted (sliceValue v).toList = some name) (hp : props name = none) :
    typingLoop props basic recur entities (j + 1) i types =
      typingLoop props basic recur entities j (i + 1) (addString types) := by
  simp only [typingLoop, hget, hgate, if_true, hq, hp]

theorem typingLoop_dataType_prop_step (props : String → Option (List EntityType))
    (basic : String → Option TypeType) (recur : List EntityType → Option (List TypeType))
    (entities : List EntityType) (j i : Nat) (types : List TypeType) (v : String)
    (m : Option MultiplierType) (name : String) (subEnts : List EntityType)
    (hget : entities.get? i = some (EntityType.dataType v m))
    (hgate : shouldIncludeComponent entities i = true)
    (hq : execQuoted (sliceValue v).toList = some name) (hp : props name = some subEnts) :
    typingLoop props basic recur entities (j + 1) i types =
      (match recur subEnts with
        | some subTypes =>
          typingLoop props basic recur entities j (i + 1)
            (subTypes.foldl addType (if multOf m then addString types else types))
        | none => none) := by
  simp only [typingLoop, hget, hgate, if_true, hq, hp]

theorem typingLoop_dataType_basic_step (props : String → Option (List EntityType))
    (basic : String → Option TypeType) (recur : List EntityType → Option (List TypeType))
    (entities : List EntityType) (j i : Nat) (types : List TypeType) (v : String)
    (m : Option MultiplierType) (t : TypeType)
    (hget : entities.get? i = some (EntityType.dataType v m))
    (hgate : shouldIncludeComponent entities i = true)
    (hq : execQuoted (sliceValue v).toList = none) (hb : basic (sliceValue v) = some t) :
    typingLoop props basic recur entities (j + 1) i types =
      typingLoop props basic recur entities j (i + 1) (addType types t) := by
  simp only [typingLoop, hget, hgate, if_true, hq, hb]

theorem typingLoop_dataType_bare_step (props : String → Option (List EntityType))
    (basic : String → Option TypeType) (recur : List EntityType → Option (List TypeType))
    (entities : List EntityType) (j i : Nat) (types : List TypeType) (v : String)
    (m : Option MultiplierType)
    (hget : entities.get? i = some (EntityType.dataType v m))
    (hgate : shouldIncludeComponent entities i = true)
    (hq : execQuoted (sliceValue v).toList = none) (hb : basic (sliceValue v) = none) :
    typingLoop props basic recur entities (j + 1) i types =
      typingLoop props basic recur entities j (i + 1) (addDataType types (sliceValue v)) := by
  simp only [typingLoop, hget, hgate, if_true, hq, hb]

theorem typingLoop_group_step (props : String → Option (List EntityType))
    (basic : String → Option TypeType) (recur : List EntityType → Option (List TypeType))
    (entities : List EntityType) (j i : Nat) (types : List TypeType)
    (ents : List EntityType) (m : Option MultiplierType)
    (hget : entities.get? i = some (EntityType.group ents m))
    (hgate : shouldIncludeComponent entities i = true) :
    typingLoop props basic recur entities (j + 1) i types =
      (match recur ents with
        | some subTypes =>
          typingLoop props basic recur entities j (i + 1)
            (subTypes.foldl addType (if multOf m then addString types else types))
        | none => none) := by
  simp only [typingLoop, hget, hgate, if_true]

theorem subset_ite_addString (c : Prop) [Decidable c] (types : List TypeType) :
    types ⊆ (if c then addString types else types) := by
  split
  · exact subset_addUnique types TypeType.string
  · exact fun u hu => hu

theorem nodup_ite_addString (c : Prop) [Decidable c] {types : List TypeType}
    (h : types.Nodup) : (if c then addString types else types).Nodup := by
  split
  · exact nodup_addUnique TypeType.string h
  · exact h

theorem typingLoop_step_shape (props : String → Option (List EntityType))
    (basic : String → Option TypeType) (recur : List EntityType → Option (List TypeType))
    (entities : List EntityType) (j i : Nat) (types : List TypeType) (e : EntityType)
    (hget : entities.get? i = some e) :
    typingLoop props basic recur entities (j + 1) i types = none ∨
      ∃ T, types ⊆ T ∧ (types.Nodup → T.Nodup) ∧
        typingLoop props basic recur entities (j + 1) i types =
          typingLoop props basic recur entities j (i + 1) T := by
  cases e with
  | keyword v m =>
    refine Or.inr ⟨_, ?_, ?_, typingLoop_keyword_step props basic recur entities j i types v m hget⟩
    · split
      · split
        · exact subset_addUnique types _
        · exact subset_addUnique types _
      · exact fun u hu => hu
    · intro hnd
      split
      · split
        · exact nodup_addUnique _ hnd
        · exact nodup_addUnique _ hnd
      · exact hnd
  | dataType v m =>
    by_cases hgate : shouldIncludeComponent entities i = true
    · cases hq : execQuoted (sliceValue v).toList with
      | some name =>
        cases hp : props name with
        | some subEnts =>
          rw [typingLoop_dataType_prop_step props basic recur entities j i types v m name subEnts
            hget hgate hq hp]
          cases hr : recur subEnts with
          | none => exact Or.inl rfl
          | some subTypes =>
            refine Or.inr ⟨_, ?_, ?_, rfl⟩
            · exact (subset_ite_addString _ types).trans (subset_foldl_addType subTypes _)
            · intro hnd
              exact nodup_foldl_addType subTypes _ (nodup_ite_addString _ hnd)
        | none =>
          rw [typingLoop_dataType_quoted_unknown props basic recur entities j i types v m name
            hget hgate hq hp]
          exact Or.inr ⟨_, subset_addUnique types _, fun hnd => nodup_addUnique _ hnd, rfl⟩
      | none =>
        cases hb : basic (sliceValue v) with
        | some t =>
          rw [typingLoop_dataType_basic_step props basic recur entities j i types v m t
            hget hgate hq hb]
          refine Or.inr ⟨_, subset_addType types t, ?_, rfl⟩
          intro hnd
          rw [addType_eq]
          exact nodup_addUnique t hnd
        | none =>
          rw [typingLoop_dataType_bare_step props basic recur entities j i types v m
            hget hgate hq hb]
          exact Or.inr ⟨_, subset_addUnique types _, fun hnd => nodup_addUnique _ hnd, rfl⟩
    · have hgate2 : shouldIncludeComponent entities i = false := by
        revert hgate
        cases shouldIncludeComponent entities i <;> simp
      rw [typingLoop_component_skip props basic recur entities j i types _ hget rfl hgate2]
      exact Or.inr ⟨types, fun u hu => hu, fun hnd => hnd, rfl⟩
  | group ents m =>
    by_cases hgate : shouldIncludeComponent entities i = true
    · rw [typingLoop_group_step props basic recur entities j i types ents m hget hgate]
      cases hr : recur ents with
      | none => exact Or.inl rfl
      | some subTypes =>
        refine Or.inr ⟨_, ?_, ?_, rfl⟩
        · exact (subset_ite_addString _ types).trans (subset_foldl_addType subTypes _)
        · intro hnd
          exact nodup_foldl_addType subTypes _ (nodup_ite_addString _ hnd)
    · have hgate2 : shouldIncludeComponent entities i = false := by
        revert hgate
        cases shouldIncludeComponent entities i <;> simp
      rw [typingLoop_component_skip props basic recur entities j i types _ hget rfl hgate2]
      exact Or.inr ⟨types, fun u hu => hu, fun hnd => hnd, rfl⟩
  | combinator k =>
    refine Or.inr ⟨_, ?_, ?_,
      typingLoop_combinator_step props basic recur entities j i types k hget⟩
    · exact subset_ite_addString _ types
    · exact fun hnd => nodup_ite_addString _ hnd
  | funcEntity m =>
    refine Or.inr ⟨_, subset_addUnique types _, fun hnd => nodup_addUnique _ hnd,
      typingLoop_function_step props basic recur entities j i types m hget⟩

theorem typingLoop_mono (props : String → Option (List EntityType))
    (basic : String → Option TypeType) (recur : List EntityType → Option (List TypeType))
    (entities : List EntityType) :
    ∀ (j i : Nat) (types res : List TypeType),
      typingLoop props basic recur entities j i types = some res → types ⊆ res := by
  intro j
  induction j with
  | zero =>
    intro i types res h
    simp only [typingLoop] at h
    cases h
    exact fun u hu => hu
  | succ j ih =>
    intro i types res h
    cases hget : entities.get? i with
    | none =>
      simp only [typingLoop, hget] at h
      cases h
      exact fun u hu => hu
    | some e =>
      rcases typingLoop_step_shape props basic recur entities j i types e hget with
        hn | ⟨T, hT, _, heq⟩
      · rw [hn] at h
        exact Option.noConfusion h
      · rw [heq] at h
        exact hT.trans (ih (i + 1) T res h)

theorem typingLoop_nodup (props : String → Option (List EntityType))
    (basic : String → Option TypeType) (recur : List EntityType → Option (List TypeType))
    (entities : List EntityType) :
    ∀ (j i : Nat) (types res : List TypeType), types.Nodup →
      typingLoop props basic recur entities j i types = some res → res.Nodup := by
  intro j
  induction j with
  | zero =>
    intro i types res hnd h
    simp only [typingLoop] at h
    cases h
    exact hnd
  | succ j ih =>
    intro i types res hnd h
    cases hget : entities.get? i with
    | none =>
      simp only [typingLoop, hget] at h
      cases h
      exact hnd
    | some e =>
      rcases typingLoop_step_shape props basic recur entities j i types e hget with
        hn | ⟨T, _, hTnd, heq⟩
      · rw [hn] at h
        exact Option.noConfusion h
      · rw [heq] at h
        exact ih (i + 1) T res (hTnd hnd) h

theorem typingLoop_reach (props : String → Option (List EntityType))
    (basic : String → Option TypeType) (recur : List EntityType → Option (List TypeType))
    (entities : List EntityType) (pos : Nat) (X : TypeType)
    (hlen : pos < entities.length)
    (hstep : ∀ (j : Nat) (types res : List TypeType),
      typingLoop props basic recur entities (j + 1) pos types = some res → X ∈ res) :
    ∀ (j i : Nat) (types res : List TypeType),
      typingLoop props basic recur entities j i types = some res →
      i ≤ pos → pos < i + j → X ∈ res := by
  intro j
  induction j with
  | zero =>
    intro i types res _ hle hlt
    omega
  | succ j ih =>
    intro i types res h hle hlt
    by_cases hip : i = pos
    · subst hip
      exact hstep j types res h
    · have hlt2 : i < pos := lt_of_le_of_ne hle hip
      cases hget : entities.get? i with
      | none =>
        exfalso
        have := List.get?_eq_none.mp hget
        omega
      | some e =>
        rcases typingLoop_step_shape props basic recur entities j i types e hget with
          hn | ⟨T, _, _, heq⟩
        · rw [hn] at h
          exact Option.noConfusion h
        · rw [heq] at h
          exact ih (i + 1) T res h (by omega) (by omega)

theorem typing_nodup_aux (props : String → Option (List EntityType))
    (basic : String → Option TypeType) (fuel : Nat) (entities : List EntityType)
    (res : List TypeType) (h : typing props basic fuel entities = some res) : res.Nodup := by
  cases fuel with
  | zero => simp [typing] at h
  | succ fuel =>
    simp only [typing] at h
    exact typingLoop_nodup props basic (typing props basic fuel) entities
      entities.length 0 [] res List.nodup_nil h

theorem pos_lt_length_of_get? {entities : List EntityType} {pos : Nat} {e : EntityType}
    (h : entities.get? pos = some e) : pos < entities.length := by
  by_contra hc
  push_neg at hc
  rw [List.get?_eq_none.mpr hc] at h
  exact Option.noConfusion h

theorem typing_reach (props : String → Option (List EntityType))
    (basic : String → Option TypeType) (fuel : Nat) (entities : List EntityType)
    (res : List TypeType) (pos : Nat) (X : TypeType) (hlen : pos < entities.length)
    (hstep : ∀ (recur : List EntityType → Option (List TypeType)) (j : Nat)
      (types res2 : List TypeType),
      typingLoop props basic recur entities (j + 1) pos types = some res2 → X ∈ res2)
    (h : typing props basic fuel entities = some res) : X ∈ res := by
  cases fuel with
  | zero => simp [typing] at h
  | succ fuel =>
    simp only [typing] at h
    exact typingLoop_reach props basic (typing props basic fuel) entities pos X hlen
      (hstep (typing props basic fuel)) entities.length 0 [] res h (Nat.zero_le pos)
      (by omega)

theorem lookupAssoc_insertAssoc (m : List (String × TypeType)) (k n : String) (v : TypeType) :
    lookupAssoc (insertAssoc m k v) n = if k = n then some v else lookupAssoc m n := by
  induction m with
  | nil => simp [insertAssoc, lookupAssoc]
  | cons p m ih =>
    obtain ⟨k1, v1⟩ := p
    by_cases hk : k1 = k
    · subst hk
      simp only [insertAssoc, if_pos rfl]
      by_cases hn : k1 = n
      · subst hn
        simp [lookupAssoc]
      · simp [lookupAssoc, hn]
    · simp only [insertAssoc, if_neg hk]
      by_cases hn : k1 = n
      · subst hn
        have hkn : ¬k = k1 := fun hc => hk hc.symm
        simp [lookupAssoc, hkn]
      · simp [lookupAssoc, hn, ih]

theorem lookupAssoc_basicStep_self (isSyn : String → Bool) (acc : List (String × TypeType))
    (name : String) :
    lookupAssoc (basicStep isSyn acc name) name =
      if (catalogSpec isSyn name).isSome then catalogSpec isSyn name
      else lookupAssoc acc name := by
  unfold basicStep catalogSpec
  split
  · simp [lookupAssoc_insertAssoc]
  · split
    · simp [lookupAssoc_insertAssoc]
    · split
      · simp
      · simp [lookupAssoc_insertAssoc]

theorem lookupAssoc_basicStep_other (isSyn : String → Bool) (acc : List (String × TypeType))
    (a name : String) (h : a ≠ name) :
    lookupAssoc (basicStep isSyn acc a) name = lookupAssoc acc name := by
  unfold basicStep
  split
  · simp [lookupAssoc_insertAssoc, h]
  · split
    · simp [lookupAssoc_insertAssoc, h]
    · split
      · rfl
      · simp [lookupAssoc_insertAssoc, h]

theorem lookupAssoc_foldl_basicStep (isSyn : String → Bool) (name : String) :
    ∀ (L : List String) (acc : List (String × TypeType)),
      lookupAssoc (L.foldl (basicStep isSyn) acc) name =
        if name ∈ L ∧ (catalogSpec isSyn name).isSome then catalogSpec isSyn name
        else lookupAssoc acc name := by
  intro L
  induction L with
  | nil => intro acc; simp
  | cons a L ih =>
    intro acc
    rw [List.foldl_cons, ih (basicStep isSyn acc a)]
    by_cases hmem : name ∈ L ∧ (catalogSpec isSyn name).isSome
    · rw [if_pos hmem, if_pos ⟨List.mem_cons_of_mem a hmem.1, hmem.2⟩]
    · rw [if_neg hmem]
      by_cases ha : a = name
      · subst ha
        rw [lookupAssoc_basicStep_self]
        by_cases hs : (catalogSpec isSyn a).isSome
        · rw [if_pos hs, if_pos ⟨List.mem_cons_self a L, hs⟩]
        · rw [if_neg hs, if_neg (fun hc => hs hc.2)]
      · rw [lookupAssoc_basicStep_other isSyn acc a name ha]
        rw [if_neg]
        intro hc
        rcases List.mem_cons.mp hc.1 with h1 | h1
        · exact ha h1.symm
        · exact hmem ⟨h1, hc.2⟩

theorem shouldInclude_false_of_left (entities : List EntityType) (i : Nat) (L : EntityType)
    (k : Combinator) (hL : entities.get? i = some L)
    (hk : entities.get? (i + 1) = some (EntityType.combinator k))
    (hmand : isMandatoryCombinator k = true) (hopt : isOptionalEntity L = false) :
    shouldIncludeComponent entities (i + 2) = false := by
  have hscan : scanLeftAux entities (i + 2) = false := by
    have h2 : i + 2 = (i + 1) + 1 := rfl
    rw [h2]
    simp only [scanLeftAux, hk, hmand, if_true]
    rw [if_neg (by omega : ¬(i + 1 = 0))]
    have h3 : i + 1 - 1 = i := by omega
    rw [h3, hL]
    simp [hopt]
  simp [shouldIncludeComponent, hscan]

/-- C1: a Component directly preceded by a Juxtaposition combinator whose
left operand is not optional fails the inclusion gate, and its loop step
passes the accumulated descriptor set through unchanged — so none of its
contributions reach the result, while every other position of the sequence
(the left operand's included) is folded exactly as it would be anyway, each
through its own independent gate.  The optionality test is the source
`isOptionalEntity` (whose exact multiplier condition is the subject of the
separate claim about the gate's optional test). -/
theorem juxtaposed_component_excluded (entities : List EntityType) (i : Nat) (L C : EntityType)
    (hL : entities.get? i = some L)
    (hk : entities.get? (i + 1) = some (EntityType.combinator Combinator.juxtaposition))
    (hC : entities.get? (i + 2) = some C) (hcomp : isComponent C = true)
    (hopt : isOptionalEntity L = false) :
    shouldIncludeComponent entities (i + 2) = false ∧
      ∀ (props : String → Option (List EntityType)) (basic : String → Option TypeType)
        (recur : List EntityType → Option (List TypeType)) (j : Nat) (types : List TypeType),
        typingLoop props basic recur entities (j + 1) (i + 2) types =
          typingLoop props basic recur entities j (i + 3) types := by
  have hfalse := shouldInclude_false_of_left entities i L Combinator.juxtaposition hL hk rfl hopt
  refine ⟨hfalse, fun props basic recur j types => ?_⟩
  exact typingLoop_component_skip props basic recur entities j (i + 2) types C hC hcomp hfalse

/-- Witness for C1, on the sequence `a b` (keyword, juxtaposition, keyword):
the second keyword is excluded and its step is the identity on the
accumulator. -/
theorem juxtaposed_component_excluded_witness :
    shouldIncludeComponent
      [EntityType.keyword "a" none, EntityType.combinator Combinator.juxtaposition,
        EntityType.keyword "b" none] 2 = false ∧
      typingLoop (fun _ => none) (fun _ => none) (fun _ => none)
        [EntityType.keyword "a" none, EntityType.combinator Combinator.juxtaposition,
          EntityType.keyword "b" none] 1 2 [] =
      typingLoop (fun _ => none) (fun _ => none) (fun _ => none)
        [EntityType.keyword "a" none, EntityType.combinator Combinator.juxtaposition,
          EntityType.keyword "b" none] 0 3 [] := by
  have h := juxtaposed_component_excluded
    [EntityType.keyword "a" none, EntityType.combinator Combinator.juxtaposition,
      EntityType.keyword "b" none] 0 (EntityType.keyword "a" none) (EntityType.keyword "b" none)
    rfl rfl rfl rfl rfl
  exact ⟨h.1, h.2 (fun _ => none) (fun _ => none) (fun _ => none) 0 []⟩

/-- C2 (evaluation of the divergent code): the source `isOptionalEntity`
tests `min > 0` on a curly-bracket multiplier, so the semantically optional
range `{0,1}` counts as non-optional — the keyword `b` in
`a{0,1} b` is excluded and the result is just generic String — while the
mandatory range `{2,3}` counts as optional, although the equivalent
question-mark multiplier is (consistently with the spec) optional. -/
theorem isOptionalEntity_min_divergence :
    isOptionalEntity (EntityType.keyword "a" (some (MultiplierType.curlyBracet 0 1))) = false ∧
    isOptionalEntity (EntityType.keyword "a" (some MultiplierType.questionMark)) = true ∧
    isOptionalEntity (EntityType.keyword "a" (some (MultiplierType.curlyBracet 2 3))) = true ∧
    shouldIncludeComponent
      [EntityType.keyword "a" (some (MultiplierType.curlyBracet 0 1)),
        EntityType.combinator Combinator.juxtaposition, EntityType.keyword "b" none] 2 = false ∧
    typing (fun _ => none) (fun _ => none) 1
      [EntityType.keyword "a" (some (MultiplierType.curlyBracet 0 1)),
        EntityType.combinator Combinator.juxtaposition, EntityType.keyword "b" none] =
      some [TypeType.string] := by
  exact ⟨rfl, rfl, rfl, by decide, by decide⟩

/-- C4: dedup insertion is idempotent — inserting a structurally equal
descriptor twice is the same as inserting it once, also with arbitrary
other insertions in between — and consequently every descriptor set the
reducer returns is free of structurally equal duplicates. -/
theorem addType_idempotent_nodup :
    (∀ (types : List TypeType) (t : TypeType), addType (addType types t) t = addType types t) ∧
    (∀ (types : List TypeType) (t : TypeType) (us : List TypeType),
      addType (us.foldl addType (addType types t)) t = us.foldl addType (addType types t)) ∧
    (∀ (props : String → Option (List EntityType)) (basic : String → Option TypeType)
      (fuel : Nat) (entities : List EntityType) (res : List TypeType),
      typing props basic fuel entities = some res → res.Nodup) := by
  refine ⟨?_, ?_, ?_⟩
  · intro types t
    rw [addType_eq, addType_eq]
    exact addUnique_of_mem (mem_addUnique types t)
  · intro types t us
    rw [addType_eq]
    refine addUnique_of_mem (subset_foldl_addType us (addType types t) ?_)
    rw [addType_eq]
    exact mem_addUnique types t
  · intro props basic fuel entities res h
    exact typing_nodup_aux props basic fuel entities res h

/-- Witness for C4: double insertion of a keyword literal collapses, and the
result of typing the sequence `a | a` is the duplicate-free singleton. -/
theorem addType_idempotent_nodup_witness :
    addType (addType [] TypeType.string) TypeType.string = addType [] TypeType.string ∧
      List.Nodup [TypeType.stringLiteral "a"] := by
  refine ⟨addType_idempotent_nodup.1 [] TypeType.string, ?_⟩
  exact addType_idempotent_nodup.2.2 (fun _ => none) (fun _ => none) 1
    [EntityType.keyword "a" none, EntityType.combinator Combinator.singleBar,
      EntityType.keyword "a" none]
    [TypeType.stringLiteral "a"] (by decide)

/-- C9: for every name in the union of the elementary grammar names and the
hexadecimal-color extension, the constructed catalog agrees with the
spec-side mapping `catalogSpec`: `number`/`integer` map to Number, `length`
to Length, names with a composite definition in the syntaxes dataset are
absent, and every other name maps to generic String. -/
theorem basicDataTypes_maps_catalogSpec :
    ∀ (cssTypeNames : List String) (isSyn : String → Bool) (name : String),
      name ∈ cssTypeNames ++ ["hex-color"] →
      lookupAssoc (basicDataTypes cssTypeNames isSyn) name = catalogSpec isSyn name := by
  intro L isSyn name hmem
  unfold basicDataTypes
  rw [lookupAssoc_foldl_basicStep]
  by_cases hs : (catalogSpec isSyn name).isSome
  · rw [if_pos ⟨hmem, hs⟩]
  · rw [if_neg (fun hc => hs hc.2)]
    simp only [lookupAssoc]
    cases ho : catalogSpec isSyn name
    · rfl
    · rw [ho] at hs
      simp at hs

/-- Witness for C9 at a concrete dataset: `number` among the elementary
names maps to Number, matching the spec-side catalog. -/
theorem basicDataTypes_maps_catalogSpec_witness :
    lookupAssoc
        (basicDataTypes ["number", "length", "color"] fun n => decide (n = "color"))
        "number" =
      catalogSpec (fun n => decide (n = "color")) "number" :=
  basicDataTypes_maps_catalogSpec ["number", "length", "color"]
    (fun n => decide (n = "color")) "number" (by decide)

/-- C5: an included Keyword component contributes a NumericLiteral with the
parsed value when its text is the canonical decimal form of that value (the
round-trip through numeric parsing and re-stringification), and otherwise a
StringLiteral with the unmodified text; in particular `0`, `1`, `42` parse
numerically while `auto`, `+0`, `007` stay exact string literals. -/
theorem keyword_literal_typing :
    (∀ (props : String → Option (List EntityType)) (basic : String → Option TypeType)
      (fuel : Nat) (entities : List EntityType) (pos : Nat) (v : String)
      (m : Option MultiplierType) (res : List TypeType),
      typing props basic fuel entities = some res →
      entities.get? pos = some (EntityType.keyword v m) →
      shouldIncludeComponent entities pos = true →
      (∀ n : Rat, canonicalNumeral v = some n → TypeType.numericLiteral n ∈ res) ∧
        (canonicalNumeral v = none → TypeType.stringLiteral v ∈ res)) ∧
    canonicalNumeral "0" = some 0 ∧ canonicalNumeral "1" = some 1 ∧
    canonicalNumeral "42" = some 42 ∧ canonicalNumeral "auto" = none ∧
    canonicalNumeral "+0" = none ∧ canonicalNumeral "007" = none ∧
    typing (fun _ => none) (fun _ => none) 1 [EntityType.keyword "42" none] =
      some [TypeType.numericLiteral 42] ∧
    typing (fun _ => none) (fun _ => none) 1 [EntityType.keyword "007" none] =
      some [TypeType.stringLiteral "007"] := by
  refine ⟨?_, by decide, by decide, by decide, by decide, by decide, by decide, by decide,
    by decide⟩
  intro props basic fuel entities pos v m res h hget hgate
  constructor
  · intro n hn
    refine typing_reach props basic fuel entities res pos (TypeType.numericLiteral n)
      (pos_lt_length_of_get? hget) ?_ h
    intro recur j types res2 hl
    rw [typingLoop_keyword_step props basic recur entities j pos types v m hget] at hl
    rw [if_pos hgate, hn] at hl
    exact typingLoop_mono props basic recur entities j (pos + 1) _ res2 hl
      (mem_addUnique types (TypeType.numericLiteral n))
  · intro hn
    refine typing_reach props basic fuel entities res pos (TypeType.stringLiteral v)
      (pos_lt_length_of_get? hget) ?_ h
    intro recur j types res2 hl
    rw [typingLoop_keyword_step props basic recur entities j pos types v m hget] at hl
    rw [if_pos hgate, hn] at hl
    exact typingLoop_mono props basic recur entities j (pos + 1) _ res2 hl
      (mem_addUnique types (TypeType.stringLiteral v))

/-- Witness for C5 on the single included keyword `42`. -/
theorem keyword_literal_typing_witness :
    TypeType.numericLiteral 42 ∈ [TypeType.numericLiteral 42] := by
  refine (keyword_literal_typing.1 (fun _ => none) (fun _ => none) 1
    [EntityType.keyword "42" none] 0 "42" none [TypeType.numericLiteral 42]
    (by decide) rfl (by decide)).1 42 (by decide)

/-- C6: a double-bar, double-ampersand or juxtaposition combinator occurring
anywhere in a sequence puts generic String into that sequence's result,
while a single-bar (exactly-one-of) combinator's step passes the
accumulator through unchanged; a pure alternation of keywords `left` and
`right` therefore yields exactly their two string literals with no generic
String fallback. -/
theorem combinator_contributions :
    (∀ (props : String → Option (List EntityType)) (basic : String → Option TypeType)
      (fuel : Nat) (entities : List EntityType) (pos : Nat) (k : Combinator)
      (res : List TypeType),
      typing props basic fuel entities = some res →
      entities.get? pos = some (EntityType.combinator k) →
      (decide (k = Combinator.doubleBar) || isMandatoryCombinator k) = true →
      TypeType.string ∈ res) ∧
    (∀ (props : String → Option (List EntityType)) (basic : String → Option TypeType)
      (recur : List EntityType → Option (List TypeType)) (entities : List EntityType)
      (j i : Nat) (types : List TypeType),
      entities.get? i = some (EntityType.combinator Combinator.singleBar) →
      typingLoop props basic recur entities (j + 1) i types =
        typingLoop props basic recur entities j (i + 1) types) ∧
    typing (fun _ => none) (fun _ => none) 1
      [EntityType.keyword "left" none, EntityType.combinator Combinator.singleBar,
        EntityType.keyword "right" none] =
      some [TypeType.stringLiteral "left", TypeType.stringLiteral "right"] := by
  refine ⟨?_, ?_, by decide⟩
  · intro props basic fuel entities pos k res h hget hk
    refine typing_reach props basic fuel entities res pos TypeType.string
      (pos_lt_length_of_get? hget) ?_ h
    intro recur j types res2 hl
    rw [typingLoop_combinator_step props basic recur entities j pos types k hget] at hl
    rw [if_pos hk] at hl
    exact typingLoop_mono props basic recur entities j (pos + 1) _ res2 hl
      (mem_addUnique types TypeType.string)
  · intro props basic recur entities j i types hget
    rw [typingLoop_combinator_step props basic recur entities j i types
      Combinator.singleBar hget]
    rfl

/-- Witness for C6 on `left || right`: the double-bar combinator puts
generic String into the result, next to both keyword literals. -/
theorem combinator_contributions_witness :
    TypeType.string ∈
      [TypeType.stringLiteral "left", TypeType.string, TypeType.stringLiteral "right"] := by
  refine combinator_contributions.1 (fun _ => none) (fun _ => none) 1
    [EntityType.keyword "left" none, EntityType.combinator Combinator.doubleBar,
      EntityType.keyword "right" none] 1 Combinator.doubleBar
    [TypeType.stringLiteral "left", TypeType.string, TypeType.stringLiteral "right"]
    (by decide) rfl (by decide)

/-- C7: reference resolution never faults — an included quoted reference to
a property name absent from the property dataset contributes exactly one
generic String (its loop step is the dedup-insert of String and nothing
else), and an included bare name absent from the scalar-type catalog
contributes exactly one symbolic DataType descriptor carrying that name;
concretely, an unknown quoted reference types to `{String}` and an unknown
bare reference to its symbolic DataType. -/
theorem unknown_reference_degrades :
    (∀ (props : String → Option (List EntityType)) (basic : String → Option TypeType)
      (recur : List EntityType → Option (List TypeType)) (entities : List EntityType)
      (j i : Nat) (types : List TypeType) (v : String) (m : Option MultiplierType)
      (name : String),
      entities.get? i = some (EntityType.dataType v m) →
      shouldIncludeComponent entities i = true →
      execQuoted (sliceValue v).toList = some name → props name = none →
      typingLoop props basic recur entities (j + 1) i types =
        typingLoop props basic recur entities j (i + 1) (addString types)) ∧
    (∀ (props : String → Option (List EntityType)) (basic : String → Option TypeType)
      (recur : List EntityType → Option (List TypeType)) (entities : List EntityType)
      (j i : Nat) (types : List TypeType) (v : String) (m : Option MultiplierType),
      entities.get? i = some (EntityType.dataType v m) →
      shouldIncludeComponent entities i = true →
      execQuoted (sliceValue v).toList = none → basic (sliceValue v) = none →
      typingLoop props basic recur entities (j + 1) i types =
        typingLoop props basic recur entities j (i + 1) (addDataType types (sliceValue v))) ∧
    typing (fun _ => none) (fun _ => none) 1
      [EntityType.dataType (String.mk ['<', '\'', 'f', 'o', 'o', '\'', '>']) none] =
      some [TypeType.string] ∧
    typing (fun _ => none) (fun _ => none) 1 [EntityType.dataType "<foo>" none] =
      some [TypeType.dataType "foo"] := by
  refine ⟨?_, ?_, by decide, by decide⟩
  · intro props basic recur entities j i types v m name hget hgate hq hp
    exact typingLoop_dataType_quoted_unknown props basic recur entities j i types v m name
      hget hgate hq hp
  · intro props basic recur entities j i types v m hget hgate hq hb
    exact typingLoop_dataType_bare_step props basic recur entities j i types v m
      hget hgate hq hb

/-- Witness for C7: the two step equations at a concrete unknown quoted
reference and a concrete unknown bare reference. -/
theorem unknown_reference_degrades_witness :
    typingLoop (fun _ => none) (fun _ => none) (fun _ => none)
        [EntityType.dataType (String.mk ['<', '\'', 'f', 'o', 'o', '\'', '>']) none] 1 0 [] =
      typingLoop (fun _ => none) (fun _ => none) (fun _ => none)
        [EntityType.dataType (String.mk ['<', '\'', 'f', 'o', 'o', '\'', '>']) none] 0 1
        (addString []) ∧
    typingLoop (fun _ => none) (fun _ => none) (fun _ => none)
        [EntityType.dataType "<foo>" none] 1 0 [] =
      typingLoop (fun _ => none) (fun _ => none) (fun _ => none)
        [EntityType.dataType "<foo>" none] 0 1 (addDataType [] "foo") := by
  constructor
  · exact unknown_reference_degrades.1 (fun _ => none) (fun _ => none) (fun _ => none)
      [EntityType.dataType (String.mk ['<', '\'', 'f', 'o', 'o', '\'', '>']) none] 0 0 []
      (String.mk ['<', '\'', 'f', 'o', 'o', '\'', '>']) none "foo" rfl (by decide) rfl rfl
  · exact unknown_reference_degrades.2.1 (fun _ => none) (fun _ => none) (fun _ => none)
      [EntityType.dataType "<foo>" none] 0 0 [] "<foo>" none rfl (by decide) rfl rfl

/-- C10: the inclusion gate is consulted only for Component entities — the
loop step of a Function entity inserts generic String unconditionally (no
gate in its equation), the step of any Combinator likewise depends only on
the combinator's own kind, and a Function joined by a mandatory combinator
to a non-optional neighbour still puts String into the final result. -/
theorem function_bypasses_gate :
    (∀ (props : String → Option (List EntityType)) (basic : String → Option TypeType)
      (recur : List EntityType → Option (List TypeType)) (entities : List EntityType)
      (j i : Nat) (types : List TypeType) (m : Option MultiplierType),
      entities.get? i = some (EntityType.funcEntity m) →
      typingLoop props basic recur entities (j + 1) i types =
        typingLoop props basic recur entities j (i + 1) (addString types)) ∧
    (∀ (props : String → Option (List EntityType)) (basic : String → Option TypeType)
      (recur : List EntityType → Option (List TypeType)) (entities : List EntityType)
      (j i : Nat) (types : List TypeType) (k : Combinator),
      entities.get? i = some (EntityType.combinator k) →
      typingLoop props basic recur entities (j + 1) i types =
        typingLoop props basic recur entities j (i + 1)
          (if decide (k = Combinator.doubleBar) || isMandatoryCombinator k then addString types
           else types)) ∧
    (∀ (props : String → Option (List EntityType)) (basic : String → Option TypeType)
      (fuel : Nat) (entities : List EntityType) (pos : Nat) (m : Option MultiplierType)
      (res : List TypeType),
      typing props basic fuel entities = some res →
      entities.get? pos = some (EntityType.funcEntity m) →
      TypeType.string ∈ res) ∧
    typing (fun _ => none) (fun _ => none) 1
      [EntityType.keyword "a" none, EntityType.combinator Combinator.juxtaposition,
        EntityType.funcEntity none] =
      some [TypeType.string] := by
  refine ⟨?_, ?_, ?_, by decide⟩
  · intro props basic recur entities j i types m hget
    exact typingLoop_function_step props basic recur entities j i types m hget
  · intro props basic recur entities j i types k hget
    exact typingLoop_combinator_step props basic recur entities j i types k hget
  · intro props basic fuel entities pos m res h hget
    refine typing_reach props basic fuel entities res pos TypeType.string
      (pos_lt_length_of_get? hget) ?_ h
    intro recur j types res2 hl
    rw [typingLoop_function_step props basic recur entities j pos types m hget] at hl
    exact typingLoop_mono props basic recur entities j (pos + 1) _ res2 hl
      (mem_addUnique types TypeType.string)

/-- Witness for C10: a function entity directly joined by juxtaposition to
the non-optional keyword `a` still contributes generic String. -/
theorem function_bypasses_gate_witness :
    TypeType.string ∈ [TypeType.string] := by
  refine function_bypasses_gate.2.2.1 (fun _ => none) (fun _ => none) 1
    [EntityType.keyword "a" none, EntityType.combinator Combinator.juxtaposition,
      EntityType.funcEntity none] 2 none [TypeType.string] (by decide) rfl

/-- Counterexample for C3 as stated: the included keyword `auto` carries the
one-or-more multiplier yet the result contains no generic String — only the
group component and the known quoted-property reference branches consult
`isMultiplied`. -/
theorem multiplied_keyword_no_string :
    typing (fun _ => none) (fun _ => none) 1
        [EntityType.keyword "auto" (some MultiplierType.plusSign)] =
      some [TypeType.stringLiteral "auto"] ∧
    TypeType.string ∉ [TypeType.stringLiteral "auto"] ∧
    isMultiplied MultiplierType.plusSign = true ∧
    shouldIncludeComponent [EntityType.keyword "auto" (some MultiplierType.plusSign)] 0 = true := by
  refine ⟨by decide, by decide, rfl, by decide⟩

/-- C3 (amended): an included Group component carrying a multiplier with
`isMultiplied` (asterisk, plus sign, hash mark, exclamation point, or a
curly range with `min > 1` or `max > 1`), and an included quoted reference
to a known property carrying such a multiplier, always put generic String
into the result, in addition to their recursive expansion's contributions;
Keyword components and bare data-type references do not trigger this
fallback (see the counterexample). -/
theorem multiplied_group_property_add_string :
    (∀ (props : String → Option (List EntityType)) (basic : String → Option TypeType)
      (fuel : Nat) (entities : List EntityType) (pos : Nat) (ents : List EntityType)
      (mult : MultiplierType) (res : List TypeType),
      typing props basic fuel entities = some res →
      entities.get? pos = some (EntityType.group ents (some mult)) →
      isMultiplied mult = true →
      shouldIncludeComponent entities pos = true →
      TypeType.string ∈ res) ∧
    (∀ (props : String → Option (List EntityType)) (basic : String → Option TypeType)
      (fuel : Nat) (entities : List EntityType) (pos : Nat) (v : String)
      (mult : MultiplierType) (name : String) (subEnts : List EntityType)
      (res : List TypeType),
      typing props basic fuel entities = some res →
      entities.get? pos = some (EntityType.dataType v (some mult)) →
      isMultiplied mult = true →
      shouldIncludeComponent entities pos = true →
      execQuoted (sliceValue v).toList = some name →
      props name = some subEnts →
      TypeType.string ∈ res) := by
  constructor
  · intro props basic fuel entities pos ents mult res h hget hmult hgate
    refine typing_reach props basic fuel entities res pos TypeType.string
      (pos_lt_length_of_get? hget) ?_ h
    intro recur j types res2 hl
    rw [typingLoop_group_step props basic recur entities j pos types ents (some mult)
      hget hgate] at hl
    cases hr : recur ents with
    | none => rw [hr] at hl; exact Option.noConfusion hl
    | some subTypes =>
      rw [hr] at hl
      have hm : multOf (some mult) = true := by simp [multOf, hmult]
      rw [if_pos hm] at hl
      refine typingLoop_mono props basic recur entities j (pos + 1) _ res2 hl ?_
      exact subset_foldl_addType subTypes _ (mem_addUnique types TypeType.string)
  · intro props basic fuel entities pos v mult name subEnts res h hget hmult hgate hq hp
    refine typing_reach props basic fuel entities res pos TypeType.string
      (pos_lt_length_of_get? hget) ?_ h
    intro recur j types res2 hl
    rw [typingLoop_dataType_prop_step props basic recur entities j pos types v (some mult)
      name subEnts hget hgate hq hp] at hl
    cases hr : recur subEnts with
    | none => rw [hr] at hl; exact Option.noConfusion hl
    | some subTypes =>
      rw [hr] at hl
      have hm : multOf (some mult) = true := by simp [multOf, hmult]
      rw [if_pos hm] at hl
      refine typingLoop_mono props basic recur entities j (pos + 1) _ res2 hl ?_
      exact subset_foldl_addType subTypes _ (mem_addUnique types TypeType.string)

/-- Witness for C3 (amended): the group `[ x ]+` contributes generic String
next to its inner keyword literal. -/
theorem multiplied_group_property_add_string_witness :
    TypeType.string ∈ [TypeType.string, TypeType.stringLiteral "x"] := by
  refine multiplied_group_property_add_string.1 (fun _ => none) (fun _ => none) 2
    [EntityType.group [EntityType.keyword "x" none] (some MultiplierType.plusSign)] 0
    [EntityType.keyword "x" none] MultiplierType.plusSign
    [TypeType.string, TypeType.stringLiteral "x"] (by decide) rfl rfl (by decide)

theorem entitiesDepth_cons (e : EntityType) (rest : List EntityType) :
    entitiesDepth (e :: rest) =
      max
        (match e with
          | EntityType.group ents _ => entitiesDepth ents + 1
          | _ => 0)
        (entitiesDepth rest) := by
  rw [entitiesDepth.eq_def]

theorem entitiesDepth_cons_right (e : EntityType) (rest : List EntityType) :
    entitiesDepth rest ≤ entitiesDepth (e :: rest) := by
  rw [entitiesDepth_cons]
  exact le_max_right _ _

theorem entitiesDepth_group_mem {ents : List EntityType} {m : Option MultiplierType}
    {entities : List EntityType} (hmem : EntityType.group ents m ∈ entities) :
    entitiesDepth ents < entitiesDepth entities := by
  induction entities with
  | nil => cases hmem
  | cons e rest ih =>
    rcases List.mem_cons.mp hmem with he | he
    · subst he
      rw [entitiesDepth_cons]
      exact lt_of_lt_of_le (Nat.lt_succ_self _) (le_max_left _ _)
    · exact lt_of_lt_of_le (ih he) (entitiesDepth_cons_right e rest)

theorem refsBelow_cons (props : String → Option (List EntityType)) (rank : String → Nat)
    (bound : Nat) (e : EntityType) (rest : List EntityType) :
    refsBelow props rank bound (e :: rest) =
      ((match e with
        | EntityType.group ents _ => refsBelow props rank bound ents
        | EntityType.dataType v _ =>
          (match execQuoted (sliceValue v).toList with
            | some name =>
              match props name with
              | some _ => decide (rank name < bound)
              | none => true
            | none => true)
        | _ => true)
        && refsBelow props rank bound rest) := by
  rw [refsBelow.eq_def]

theorem refsBelow_group_mem {props : String → Option (List EntityType)} {rank : String → Nat}
    {bound : Nat} {ents : List EntityType} {m : Option MultiplierType}
    {entities : List EntityType} (hrb : refsBelow props rank bound entities = true)
    (hmem : EntityType.group ents m ∈ entities) : refsBelow props rank bound ents = true := by
  induction entities with
  | nil => cases hmem
  | cons e rest ih =>
    rw [refsBelow_cons, Bool.and_eq_true] at hrb
    rcases List.mem_cons.mp hmem with he | he
    · subst he
      exact hrb.1
    · exact ih hrb.2 he

theorem refsBelow_ref_mem {props : String → Option (List EntityType)} {rank : String → Nat}
    {bound : Nat} {v : String} {m : Option MultiplierType} {name : String}
    {se : List EntityType} {entities : List EntityType}
    (hrb : refsBelow props rank bound entities = true)
    (hmem : EntityType.dataType v m ∈ entities)
    (hq : execQuoted (sliceValue v).toList = some name) (hp : props name = some se) :
    rank name < bound := by
  induction entities with
  | nil => cases hmem
  | cons e rest ih =>
    rw [refsBelow_cons, Bool.and_eq_true] at hrb
    rcases List.mem_cons.mp hmem with he | he
    · subst he
      have h1 : (match execQuoted (sliceValue v).toList with
          | some name =>
            match props name with
            | some _ => decide (rank name < bound)
            | none => true
          | none => true) = true := hrb.1
      rw [hq] at h1
      have h2 : (match props name with
          | some _ => decide (rank name < bound)
          | none => true) = true := h1
      rw [hp] at h2
      exact of_decide_eq_true h2
    · exact ih hrb.2 he

theorem typingLoop_isSome (props : String → Option (List EntityType))
    (basic : String → Option TypeType) (recur : List EntityType → Option (List TypeType))
    (entities : List EntityType)
    (hgrp : ∀ (ents : List EntityType) (m : Option MultiplierType),
      EntityType.group ents m ∈ entities → ∃ s, recur ents = some s)
    (href : ∀ (v : String) (m : Option MultiplierType) (name : String) (se : List EntityType),
      EntityType.dataType v m ∈ entities → execQuoted (sliceValue v).toList = some name →
      props name = some se → ∃ s, recur se = some s) :
    ∀ (j i : Nat) (types : List TypeType),
      ∃ r, typingLoop props basic recur entities j i types = some r := by
  intro j
  induction j with
  | zero => intro i types; exact ⟨types, rfl⟩
  | succ j ih =>
    intro i types
    cases hget : entities.get? i with
    | none => exact ⟨types, by simp only [typingLoop, hget]⟩
    | some e =>
      cases e with
      | keyword v m =>
        rw [typingLoop_keyword_step props basic recur entities j i types v m hget]
        exact ih (i + 1) _
      | dataType v m =>
        by_cases hgate : shouldIncludeComponent entities i = true
        · cases hq : execQuoted (sliceValue v).toList with
          | some name =>
            cases hp : props name with
            | some se =>
              obtain ⟨s, hs⟩ := href v m name se (List.get?_mem hget) hq hp
              rw [typingLoop_dataType_prop_step props basic recur entities j i types v m
                name se hget hgate hq hp, hs]
              exact ih (i + 1) _
            | none =>
              rw [typingLoop_dataType_quoted_unknown props basic recur entities j i types v m
                name hget hgate hq hp]
              exact ih (i + 1) _
          | none =>
            cases hb : basic (sliceValue v) with
            | some t =>
              rw [typingLoop_dataType_basic_step props basic recur entities j i types v m t
                hget hgate hq hb]
              exact ih (i + 1) _
            | none =>
              rw [typingLoop_dataType_bare_step props basic recur entities j i types v m
                hget hgate hq hb]
              exact ih (i + 1) _
        · have hgate2 : shouldIncludeComponent entities i = false := by
            revert hgate
            cases shouldIncludeComponent entities i <;> simp
          rw [typingLoop_component_skip props basic recur entities j i types _ hget rfl hgate2]
          exact ih (i + 1) types
      | group ents m =>
        by_cases hgate : shouldIncludeComponent entities i = true
        · obtain ⟨s, hs⟩ := hgrp ents m (List.get?_mem hget)
          rw [typingLoop_group_step props basic recur entities j i types ents m hget hgate, hs]
          exact ih (i + 1) _
        · have hgate2 : shouldIncludeComponent entities i = false := by
            revert hgate
            cases shouldIncludeComponent entities i <;> simp
          rw [typingLoop_component_skip props basic recur entities j i types _ hget rfl hgate2]
          exact ih (i + 1) types
      | combinator k =>
        rw [typingLoop_combinator_step props basic recur entities j i types k hget]
        exact ih (i + 1) _
      | funcEntity m =>
        rw [typingLoop_function_step props basic recur entities j i types m hget]
        exact ih (i + 1) _

/-- C8: when a rank function witnesses acyclicity of the
property-to-property reference graph (every property's grammar only
references properties of smaller rank) and `D` bounds the nesting depth of
every property grammar, the reducer terminates on any entity sequence whose
references have rank below `K`, under a recursion budget of the sequence's
own nesting depth plus `K` further levels of at most `D + 1` each — the
recursion depth is bounded by grammar nesting depth plus the depth of the
acyclic property-reference chain.  In particular a sequence with no
resolvable quoted property references (`K = 0`) terminates within its own
nesting depth.  Modelled from the spec: `props` stands for the property
dataset composed with the external value-definition parser. -/
theorem typing_terminates_acyclic :
    ∀ (props : String → Option (List EntityType)) (basic : String → Option TypeType)
      (rank : String → Nat) (D : Nat) (fuel K : Nat) (entities : List EntityType),
      (∀ (name : String) (ents : List EntityType), props name = some ents →
        entitiesDepth ents ≤ D ∧ refsBelow props rank (rank name) ents = true) →
      refsBelow props rank K entities = true →
      entitiesDepth entities + K * (D + 1) < fuel →
      ∃ res, typing props basic fuel entities = some res := by
  intro props basic rank D fuel
  induction fuel using Nat.strong_induction_on with
  | _ fuel ih =>
    intro K entities hp hrb hlt
    cases fuel with
    | zero => exact absurd hlt (Nat.not_lt_zero _)
    | succ f =>
      simp only [typing]
      apply typingLoop_isSome
      · intro ents m hmem
        have hd := entitiesDepth_group_mem hmem
        have hrb2 := refsBelow_group_mem hrb hmem
        exact ih f (Nat.lt_succ_self f) K ents hp hrb2 (by linarith)
      · intro v m name se hmem hq hpn
        have hrk : rank name < K := refsBelow_ref_mem hrb hmem hq hpn
        obtain ⟨hdep, hrb2⟩ := hp name se hpn
        refine ih f (Nat.lt_succ_self f) (rank name) se hp hrb2 ?_
        have h1 : rank name + 1 ≤ K := hrk
        have h2 : (rank name + 1) * (D + 1) ≤ K * (D + 1) := Nat.mul_le_mul_right _ h1
        have h3 : rank name * (D + 1) + (D + 1) = (rank name + 1) * (D + 1) := by ring
        linarith

/-- Witness for C8: with no properties at all, one unit of budget reduces a
flat keyword sequence. -/
theorem typing_terminates_acyclic_witness :
    ∃ res, typing (fun _ => none) (fun _ => none) 1 [EntityType.keyword "auto" none] =
      some res := by
  refine typing_terminates_acyclic (fun _ => none) (fun _ => none) (fun _ => 0) 0 1 0
    [EntityType.keyword "auto" none] ?_ ?_ ?_
  · intro name ents h
    exact Option.noConfusion h
  · simp [refsBelow]
  · simp [entitiesDepth]
